import Mathlib

/-!
Shallow embedding of `src/core_application.cpp`: a two-queue task scheduler.

The C++ class `core_application` owns
  * a background queue `_bgTasks : deque<function<void()>>` guarded by `_mutex`
    with condition variable `_condition` and shutdown flag `_done`, drained by
    the single worker thread `_thread`;
  * a main queue `_mainTasks : deque<function<void()>>` guarded by `_mainMutex`
    with the debounce flag `_scheduledToRunOnMain`, drained by `runMainTasks`
    which an external pump invokes after a pump request
    (`MAIN_THREAD_ASYNC_EM_ASM` in `runOnMain`).

Modelling choices, each taken directly from the source:
  * A queue entry is an `Option Task`: `none` models a null
    `std::function<void()>` value (which converts to `false` in the drain-loop
    conditions `for (auto task = dequeueBg(); task; ...)`), `some t` a genuine
    callable.
  * A `Task` carries an identifier (so executions leave a trace) and the list
    of submissions its body performs when run (`runOnBgThread` /`runOnMain`
    calls made from inside the task body, in order).  Task bodies are opaque
    to the scheduler; submissions back into the scheduler are the only actions
    of a body the scheduler can observe, so they are the whole model of a body.
  * The drain loops `runMainTasks` and the worker-thread loop take explicit
    fuel (Lean needs a termination measure; the C++ loops run unboundedly).
    Every theorem supplies fuel large enough that it is never exhausted.
  * Each operation also emits a list of lock/execution events mirroring the
    lexical `unique_lock` scopes of the C++ (acquire/release of `_mutex` and
    `_mainMutex`, task-body execution, pump request), so that the locking
    discipline claims can be stated about the generated traces.
  * Interleavings: the functions below are the exact per-operation state
    transformers of the source; theorems compose them into the specific
    serialized scenarios each claim describes.
-/

namespace CoreApp

/-- A task: an identifier plus the submissions its body performs when it is
executed.  An effect `(true, f)` is a call `runOnBgThread(f)` from inside the
body, `(false, f)` a call `runOnMain(f)`; `f = none` is a null
`std::function`. -/
inductive Task : Type where
  | mk (ident : Nat) (effs : List (Bool × Option Task)) : Task

/-- The task's identifier (models the identity of the C++ callable). -/
def Task.ident : Task → Nat
  | .mk i _ => i

/-- The submissions the task's body performs, in order. -/
def Task.effs : Task → List (Bool × Option Task)
  | .mk _ e => e

/-- The mutable state of a `core_application` object: shutdown flag `_done`,
background queue `_bgTasks`, main queue `_mainTasks`, and the debounce flag
`_scheduledToRunOnMain`. -/
structure AppState where
  done : Bool
  bgTasks : List (Option Task)
  mainTasks : List (Option Task)
  scheduledToRunOnMain : Bool

/-- `createApp` / the `core_application` constructor: both queues empty, no
shutdown requested, no dispatch outstanding. -/
def createApp : AppState :=
  { done := false, bgTasks := [], mainTasks := [], scheduledToRunOnMain := false }

/-- Lock and execution events, mirroring the lexical `unique_lock` scopes of
the source.  `acqBg`/`relBg` bracket a critical section of `_mutex`,
`acqMain`/`relMain` one of `_mainMutex`; `pumpReq` is the
`MAIN_THREAD_ASYNC_EM_ASM` pump request (issued after `runOnMain`'s lock block
ends); `execTask i` marks the point where a dequeued task body starts
executing. -/
inductive Ev : Type where
  | acqBg : Ev
  | relBg : Ev
  | acqMain : Ev
  | relMain : Ev
  | pumpReq : Ev
  | execTask (i : Nat) : Ev

/-- `core_application::runOnBgThread`: under `_mutex`, append the callable to
`_bgTasks`; then (outside the lock) notify the worker.  The notify has no
state effect in the model. -/
def runOnBgThread (f : Option Task) (s : AppState) : AppState :=
  { s with bgTasks := s.bgTasks ++ [f] }

/-- `core_application::runOnMain`: under `_mainMutex`, append the callable to
`_mainTasks`; if `_scheduledToRunOnMain` is already set return (no pump
request); otherwise set it and (outside the lock) issue one pump request.
Returns the new state and whether a pump request was issued. -/
def runOnMain (f : Option Task) (s : AppState) : AppState × Bool :=
  let s1 := { s with mainTasks := s.mainTasks ++ [f] }
  if s1.scheduledToRunOnMain then (s1, false)
  else ({ s1 with scheduledToRunOnMain := true }, true)

/-- `core_application::dequeueMain`: under `_mainMutex`, if `_mainTasks` is
empty clear `_scheduledToRunOnMain` and return a null function; otherwise pop
and return the front (which may itself be null). -/
def dequeueMain (s : AppState) : Option Task × AppState :=
  match s.mainTasks with
  | [] => (none, { s with scheduledToRunOnMain := false })
  | f :: rest => (f, { s with mainTasks := rest })

/-- Result of `core_application::dequeueBg`: either the condition wait blocks
(queue empty and `_done` clear), or the call returns a function value (null
when the queue is empty with `_done` set, or when the popped front is null). -/
inductive BgDequeue : Type where
  | wait : BgDequeue
  | ret (f : Option Task) (s : AppState) : BgDequeue

/-- `core_application::dequeueBg`: under `_mutex`, wait until `_bgTasks` is
non-empty or `_done` is set; then return a null function if the queue is
empty (shutdown), else pop and return the front. -/
def dequeueBg (s : AppState) : BgDequeue :=
  if s.bgTasks.isEmpty && !s.done then .wait
  else
    match s.bgTasks with
    | [] => .ret none s
    | f :: rest => .ret f { s with bgTasks := rest }

/-- Result of running a task body: final state, number of pump requests the
body's submissions issued, emitted events. -/
structure EffResult where
  state : AppState
  reqs : Nat
  trace : List Ev

/-- Execute a task body: perform its submissions in order.  `(true, f)` runs
`runOnBgThread f` (one `_mutex` critical section); `(false, f)` runs
`runOnMain f` (one `_mainMutex` critical section, plus a pump request when the
debounce flag was clear). -/
def runEffs : List (Bool × Option Task) → AppState → EffResult
  | [], s => ⟨s, 0, []⟩
  | (true, f) :: rest, s =>
    let r := runEffs rest (runOnBgThread f s)
    ⟨r.state, r.reqs, Ev.acqBg :: Ev.relBg :: r.trace⟩
  | (false, f) :: rest, s =>
    let p := runOnMain f s
    let r := runEffs rest p.1
    ⟨r.state, (if p.2 then 1 else 0) + r.reqs,
      (if p.2 then [Ev.acqMain, Ev.relMain, Ev.pumpReq]
       else [Ev.acqMain, Ev.relMain]) ++ r.trace⟩

/-- Result of a main-queue drain: final state, identifiers of the task bodies
executed in order, pump requests issued by those bodies, emitted events. -/
structure MainResult where
  state : AppState
  ids : List Nat
  reqs : Nat
  trace : List Ev

/-- `core_application::runMainTasks`: `for (auto task = dequeueMain(); task;
task = dequeueMain()) task();` — repeatedly dequeue and execute until
`dequeueMain` returns a null function.  `fuel` bounds the number of loop
iterations; every theorem supplies enough fuel that the `0` case is unused. -/
def runMainTasks : Nat → AppState → MainResult
  | 0, s => ⟨s, [], 0, []⟩
  | fuel + 1, s =>
    match dequeueMain s with
    | (none, s1) => ⟨s1, [], 0, [Ev.acqMain, Ev.relMain]⟩
    | (some t, s1) =>
      let e := runEffs t.effs s1
      let r := runMainTasks fuel e.state
      ⟨r.state, t.ident :: r.ids, e.reqs + r.reqs,
        Ev.acqMain :: Ev.relMain :: Ev.execTask t.ident :: (e.trace ++ r.trace)⟩

/-- How a bounded run of the worker loop ended: the loop exited (dequeueBg
returned a null function), the worker blocked in the condition wait, or the
fuel ran out (never the case in any theorem below). -/
inductive WorkerOutcome : Type where
  | exited : WorkerOutcome
  | blocked : WorkerOutcome
  | outOfFuel : WorkerOutcome

/-- Result of running the worker loop: final state, identifiers of the task
bodies executed in order, pump requests issued by those bodies, emitted
events, and how the run ended. -/
structure WorkerResult where
  state : AppState
  ids : List Nat
  reqs : Nat
  trace : List Ev
  outcome : WorkerOutcome

/-- The worker thread `_thread`'s loop: `for (auto task = dequeueBg(); task;
task = dequeueBg()) task();` — repeatedly dequeue and execute until
`dequeueBg` returns a null function; block (inside the condition wait, lock
released) while the queue is empty and `_done` is clear. -/
def workerRun : Nat → AppState → WorkerResult
  | 0, s => ⟨s, [], 0, [], .outOfFuel⟩
  | fuel + 1, s =>
    match dequeueBg s with
    | .wait => ⟨s, [], 0, [], .blocked⟩
    | .ret none s1 => ⟨s1, [], 0, [Ev.acqBg, Ev.relBg], .exited⟩
    | .ret (some t) s1 =>
      let e := runEffs t.effs s1
      let r := workerRun fuel e.state
      ⟨r.state, t.ident :: r.ids, e.reqs + r.reqs,
        Ev.acqBg :: Ev.relBg :: Ev.execTask t.ident :: (e.trace ++ r.trace),
        r.outcome⟩

/-- `core_application::~core_application`: under `_mutex` set `_done`, notify
the worker, then `join`.  The join completes exactly when the worker loop
exits, i.e. when the returned outcome is `.exited`; destruction of the
object's resources happens only after that. -/
def destroyApp (fuel : Nat) (s : AppState) : WorkerResult :=
  workerRun fuel { s with done := true }

/-- Submit a list of callables to the background queue, in order, from one
thread (repeated `runOnBgThread` calls). -/
def submitAllBg (fs : List (Option Task)) (s : AppState) : AppState :=
  fs.foldl (fun s f => runOnBgThread f s) s

/-- Submit a list of callables to the main queue, in order, from one thread
(repeated `runOnMain` calls), counting the pump requests issued. -/
def submitAllMain : List (Option Task) → AppState → AppState × Nat
  | [], s => (s, 0)
  | f :: rest, s =>
    let q := runOnMain f s
    let r := submitAllMain rest q.1
    (r.1, (if q.2 then 1 else 0) + r.2)

/-- Submit a list of genuine tasks, each tagged with its destination queue
(`true` = background via `runOnBgThread`, `false` = main via `runOnMain`),
in order, from one thread. -/
def submitTasks (evts : List (Bool × Task)) (s : AppState) : AppState :=
  evts.foldl
    (fun s e => if e.1 then runOnBgThread (some e.2) s else (runOnMain (some e.2) s).1)
    s

/-- The background-queue submissions in a mixed submission list. -/
def bgSubs (evts : List (Bool × Task)) : List Task :=
  (evts.filter (fun e => e.1)).map (fun e => e.2)

/-- The main-queue submissions in a mixed submission list. -/
def mainSubs (evts : List (Bool × Task)) : List Task :=
  (evts.filter (fun e => !e.1)).map (fun e => e.2)

/-- The event trace of the worker draining tasks `ts` (each dequeue is one
`_mutex` critical section followed by the body's execution). -/
def pureBgTrace (ts : List Task) : List Ev :=
  ts.foldr (fun t acc => Ev.acqBg :: Ev.relBg :: Ev.execTask t.ident :: acc) []

/-- The event trace of `runMainTasks` draining tasks `ts`: one `_mainMutex`
critical section and body execution per task, then the final empty-checking
critical section that clears the debounce flag. -/
def pureMainTrace (ts : List Task) : List Ev :=
  ts.foldr (fun t acc => Ev.acqMain :: Ev.relMain :: Ev.execTask t.ident :: acc)
    [Ev.acqMain, Ev.relMain]

/-- Check the locking discipline of an event trace, tracking how many times
the background lock (`b`) and main lock (`m`) are currently held:
every acquisition happens with both locks free (so the two locks are never
held simultaneously and no acquisition is reentrant), every release matches
one held lock, every task body starts with both locks free, and every pump
request is issued with both locks free. -/
def lockCheck : List Ev → Nat → Nat → Bool
  | [], _, _ => true
  | Ev.acqBg :: r, b, m => b == 0 && m == 0 && lockCheck r 1 m
  | Ev.relBg :: r, b, m => b == 1 && lockCheck r 0 m
  | Ev.acqMain :: r, b, m => b == 0 && m == 0 && lockCheck r b 1
  | Ev.relMain :: r, b, m => m == 1 && lockCheck r b 0
  | Ev.pumpReq :: r, b, m => b == 0 && m == 0 && lockCheck r b m
  | Ev.execTask _ :: r, b, m => b == 0 && m == 0 && lockCheck r b m

/-- The indivisible pieces every scheduler trace is made of: one complete
critical section of either lock (with a pump request after release, for the
`runOnMain` path that sets the debounce flag), or a task-body start marker
outside any lock. -/
inductive Atom : List Ev → Prop where
  | bg : Atom [Ev.acqBg, Ev.relBg]
  | mainNoReq : Atom [Ev.acqMain, Ev.relMain]
  | mainReq : Atom [Ev.acqMain, Ev.relMain, Ev.pumpReq]
  | task (i : Nat) : Atom [Ev.execTask i]

/-- A trace that is a concatenation of atoms. -/
inductive Flat : List Ev → Prop where
  | nil : Flat []
  | cons {a t : List Ev} : Atom a → Flat t → Flat (a ++ t)

/-- Concrete scenario used to exhibit the null-function pitfall on the
background queue: a null `std::function` is submitted to the background
queue, then a genuine task (identifier 1). -/
def nullThenTask : AppState :=
  runOnBgThread (some (Task.mk 1 [])) (runOnBgThread none createApp)

/-! ### Helper lemmas -/

/-- Executing an empty task body changes nothing. -/
theorem runEffs_nil (s : AppState) : runEffs [] s = ⟨s, 0, []⟩ := rfl

/-- One worker-loop iteration popping a genuine task from the front. -/
theorem workerRun_step_pop (fuel : Nat) (d : Bool) (t : Task)
    (bg mt : List (Option Task)) (fl : Bool) :
    workerRun (fuel + 1) ⟨d, some t :: bg, mt, fl⟩ =
      ⟨(workerRun fuel (runEffs t.effs ⟨d, bg, mt, fl⟩).state).state,
        t.ident :: (workerRun fuel (runEffs t.effs ⟨d, bg, mt, fl⟩).state).ids,
        (runEffs t.effs ⟨d, bg, mt, fl⟩).reqs +
          (workerRun fuel (runEffs t.effs ⟨d, bg, mt, fl⟩).state).reqs,
        Ev.acqBg :: Ev.relBg :: Ev.execTask t.ident ::
          ((runEffs t.effs ⟨d, bg, mt, fl⟩).trace ++
            (workerRun fuel (runEffs t.effs ⟨d, bg, mt, fl⟩).state).trace),
        (workerRun fuel (runEffs t.effs ⟨d, bg, mt, fl⟩).state).outcome⟩ := rfl

/-- The worker-loop iteration that blocks: queue empty, shutdown clear. -/
theorem workerRun_step_wait (fuel : Nat) (mt : List (Option Task)) (fl : Bool) :
    workerRun (fuel + 1) ⟨false, [], mt, fl⟩ =
      ⟨⟨false, [], mt, fl⟩, [], 0, [], .blocked⟩ := rfl

/-- The worker-loop iteration that exits on shutdown: queue empty, `_done`
set, `dequeueBg` returns a null function. -/
theorem workerRun_step_exit (fuel : Nat) (mt : List (Option Task)) (fl : Bool) :
    workerRun (fuel + 1) ⟨true, [], mt, fl⟩ =
      ⟨⟨true, [], mt, fl⟩, [], 0, [Ev.acqBg, Ev.relBg], .exited⟩ := rfl

/-- The worker-loop iteration that pops a null function from the front: the
loop exits, whatever the shutdown flag says and whatever remains queued. -/
theorem workerRun_step_null (fuel : Nat) (d : Bool)
    (bg mt : List (Option Task)) (fl : Bool) :
    workerRun (fuel + 1) ⟨d, none :: bg, mt, fl⟩ =
      ⟨⟨d, bg, mt, fl⟩, [], 0, [Ev.acqBg, Ev.relBg], .exited⟩ := rfl

/-- The `runMainTasks` iteration on an empty queue: clear the debounce flag
and return. -/
theorem runMainTasks_step_empty (fuel : Nat) (d : Bool)
    (bg : List (Option Task)) (fl : Bool) :
    runMainTasks (fuel + 1) ⟨d, bg, [], fl⟩ =
      ⟨⟨d, bg, [], false⟩, [], 0, [Ev.acqMain, Ev.relMain]⟩ := rfl

/-- The `runMainTasks` iteration popping a null function: the loop exits with
the debounce flag untouched and the rest of the queue still there. -/
theorem runMainTasks_step_null (fuel : Nat) (d : Bool)
    (bg mt : List (Option Task)) (fl : Bool) :
    runMainTasks (fuel + 1) ⟨d, bg, none :: mt, fl⟩ =
      ⟨⟨d, bg, mt, fl⟩, [], 0, [Ev.acqMain, Ev.relMain]⟩ := rfl

/-- One `runMainTasks` iteration popping a genuine task from the front. -/
theorem runMainTasks_step_pop (fuel : Nat) (d : Bool) (t : Task)
    (bg mt : List (Option Task)) (fl : Bool) :
    runMainTasks (fuel + 1) ⟨d, bg, some t :: mt, fl⟩ =
      ⟨(runMainTasks fuel (runEffs t.effs ⟨d, bg, mt, fl⟩).state).state,
        t.ident :: (runMainTasks fuel (runEffs t.effs ⟨d, bg, mt, fl⟩).state).ids,
        (runEffs t.effs ⟨d, bg, mt, fl⟩).reqs +
          (runMainTasks fuel (runEffs t.effs ⟨d, bg, mt, fl⟩).state).reqs,
        Ev.acqMain :: Ev.relMain :: Ev.execTask t.ident ::
          ((runEffs t.effs ⟨d, bg, mt, fl⟩).trace ++
            (runMainTasks fuel (runEffs t.effs ⟨d, bg, mt, fl⟩).state).trace)⟩ := rfl

/-- Submitting a batch to the background queue appends it, changing nothing
else. -/
theorem submitAllBg_spec (fs : List (Option Task)) : ∀ s : AppState,
    submitAllBg fs s = { s with bgTasks := s.bgTasks ++ fs } := by
  induction fs with
  | nil => intro s; simp [submitAllBg]
  | cons f rest ih =>
    intro s
    have h : submitAllBg (f :: rest) s = submitAllBg rest (runOnBgThread f s) := rfl
    rw [h, ih]
    simp [runOnBgThread]

/-- The state after `runOnMain`: the callable is appended and the debounce
flag ends up set, whether or not it already was. -/
theorem runOnMain_fst (f : Option Task) (s : AppState) :
    (runOnMain f s).1 =
      { s with mainTasks := s.mainTasks ++ [f], scheduledToRunOnMain := true } := by
  obtain ⟨d, bg, mt, fl⟩ := s
  cases fl <;> simp [runOnMain]

/-- `runOnMain` issues a pump request exactly when the debounce flag was
clear. -/
theorem runOnMain_snd (f : Option Task) (s : AppState) :
    (runOnMain f s).2 = !s.scheduledToRunOnMain := by
  obtain ⟨d, bg, mt, fl⟩ := s
  cases fl <;> simp [runOnMain]

/-- While the debounce flag is set, a batch of main-queue submissions is
coalesced: zero pump requests, tasks simply appended, flag still set. -/
theorem submitAllMain_flagTrue (fs : List (Option Task)) : ∀ s : AppState,
    s.scheduledToRunOnMain = true →
    submitAllMain fs s = ({ s with mainTasks := s.mainTasks ++ fs }, 0) := by
  induction fs with
  | nil => intro s h; simp [submitAllMain]
  | cons f rest ih =>
    intro s h
    simp only [submitAllMain]
    rw [runOnMain_snd, runOnMain_fst, ih _ rfl]
    simp [h, List.append_assoc]

/-- From a clear debounce flag, a non-empty batch of main-queue submissions
issues exactly one pump request (on the first submission, the flag's
clear-to-set transition). -/
theorem submitAllMain_debounce (f : Option Task) (rest : List (Option Task))
    (s : AppState) (h : s.scheduledToRunOnMain = false) :
    (submitAllMain (f :: rest) s).2 = 1 := by
  simp only [submitAllMain]
  rw [runOnMain_snd, runOnMain_fst, submitAllMain_flagTrue rest _ rfl]
  simp [h]

/-- The worker, with shutdown not requested and the queue holding the
effect-free tasks `ts`, executes them in FIFO order, empties the queue, and
then blocks in the condition wait. -/
theorem workerRun_pure_noDone (ts : List Task) : ∀ s : AppState,
    (∀ t ∈ ts, t.effs = []) → s.bgTasks = ts.map some → s.done = false →
    workerRun (ts.length + 1) s =
      ⟨{ s with bgTasks := [] }, ts.map Task.ident, 0, pureBgTrace ts, .blocked⟩ := by
  induction ts with
  | nil =>
    intro s hp hq hd
    obtain ⟨d, bg, mt, fl⟩ := s
    simp only at hq hd
    subst hq; subst hd
    simp [workerRun, dequeueBg, pureBgTrace]
  | cons t rest ih =>
    intro s hp hq hd
    obtain ⟨d, bg, mt, fl⟩ := s
    simp only at hq hd
    subst hq; subst hd
    have ht : t.effs = [] := hp t (List.mem_cons_self t _)
    simp only [List.length_cons, List.map_cons, workerRun_step_pop, ht, runEffs_nil]
    rw [ih ⟨false, List.map some rest, mt, fl⟩
        (fun t' h' => hp t' (List.mem_cons_of_mem t h')) rfl rfl]
    simp [pureBgTrace]

/-- The worker, with shutdown requested and the queue holding the effect-free
tasks `ts`, executes them in FIFO order, then observes the queue empty with
the shutdown flag set and exits. -/
theorem workerRun_pure_done (ts : List Task) : ∀ s : AppState,
    (∀ t ∈ ts, t.effs = []) → s.bgTasks = ts.map some → s.done = true →
    workerRun (ts.length + 1) s =
      ⟨{ s with bgTasks := [] }, ts.map Task.ident, 0,
        pureBgTrace ts ++ [Ev.acqBg, Ev.relBg], .exited⟩ := by
  induction ts with
  | nil =>
    intro s hp hq hd
    obtain ⟨d, bg, mt, fl⟩ := s
    simp only at hq hd
    subst hq; subst hd
    simp [workerRun, dequeueBg, pureBgTrace]
  | cons t rest ih =>
    intro s hp hq hd
    obtain ⟨d, bg, mt, fl⟩ := s
    simp only at hq hd
    subst hq; subst hd
    have ht : t.effs = [] := hp t (List.mem_cons_self t _)
    simp only [List.length_cons, List.map_cons, workerRun_step_pop, ht, runEffs_nil]
    rw [ih ⟨true, List.map some rest, mt, fl⟩
        (fun t' h' => hp t' (List.mem_cons_of_mem t h')) rfl rfl]
    simp [pureBgTrace]

/-- `runMainTasks` with the queue holding the effect-free tasks `ts` executes
them in FIFO order, empties the queue, clears the debounce flag and
returns. -/
theorem runMainTasks_pure (ts : List Task) : ∀ s : AppState,
    (∀ t ∈ ts, t.effs = []) → s.mainTasks = ts.map some →
    runMainTasks (ts.length + 1) s =
      ⟨{ s with mainTasks := [], scheduledToRunOnMain := false },
        ts.map Task.ident, 0, pureMainTrace ts⟩ := by
  induction ts with
  | nil =>
    intro s hp hq
    obtain ⟨d, bg, mt, fl⟩ := s
    simp only at hq
    subst hq
    simp [runMainTasks, dequeueMain, pureMainTrace]
  | cons t rest ih =>
    intro s hp hq
    obtain ⟨d, bg, mt, fl⟩ := s
    simp only at hq
    subst hq
    have ht : t.effs = [] := hp t (List.mem_cons_self t _)
    simp only [List.length_cons, List.map_cons, runMainTasks_step_pop, ht, runEffs_nil]
    rw [ih ⟨d, bg, List.map some rest, fl⟩
        (fun t' h' => hp t' (List.mem_cons_of_mem t h')) rfl]
    simp [pureMainTrace]

/-- With shutdown requested, the worker's loop always exits (the destructor's
`join` always completes) once it has consumed the queue — whatever mix of
genuine effect-free tasks and null functions the queue holds. -/
theorem workerRun_done_exits (qs : List (Option Task)) : ∀ s : AppState,
    s.bgTasks = qs → s.done = true →
    (∀ f ∈ qs, ∀ t : Task, f = some t → t.effs = []) →
    (workerRun (qs.length + 1) s).outcome = .exited := by
  induction qs with
  | nil =>
    intro s hq hd hp
    obtain ⟨d, bg, mt, fl⟩ := s
    simp only at hq hd
    subst hq; subst hd
    simp [workerRun, dequeueBg]
  | cons f rest ih =>
    intro s hq hd hp
    obtain ⟨d, bg, mt, fl⟩ := s
    simp only at hq hd
    subst hq; subst hd
    cases f with
    | none => simp [workerRun, dequeueBg]
    | some t =>
      have ht : t.effs = [] := hp (some t) (List.mem_cons_self _ _) t rfl
      simp only [List.length_cons, workerRun_step_pop, ht, runEffs_nil]
      exact ih ⟨true, rest, mt, fl⟩ rfl rfl
        (fun f' h' => hp f' (List.mem_cons_of_mem _ h'))

/-- Concatenating flat traces yields a flat trace. -/
theorem Flat.append {a b : List Ev} (ha : Flat a) (hb : Flat b) : Flat (a ++ b) := by
  induction ha with
  | nil => exact hb
  | cons hx _ ih => rw [List.append_assoc]; exact Flat.cons hx ih

/-- A task body's trace is a concatenation of complete critical sections:
each submission acquires and fully releases one queue lock. -/
theorem flat_runEffs (effs : List (Bool × Option Task)) :
    ∀ s : AppState, Flat (runEffs effs s).trace := by
  induction effs with
  | nil => intro s; exact Flat.nil
  | cons e rest ih =>
    intro s
    obtain ⟨b, f⟩ := e
    cases b with
    | true => exact Flat.cons Atom.bg (ih _)
    | false =>
      cases h : (runOnMain f s).2 with
      | true =>
        have htr : (runEffs ((false, f) :: rest) s).trace =
            [Ev.acqMain, Ev.relMain, Ev.pumpReq] ++ (runEffs rest (runOnMain f s).1).trace := by
          simp [runEffs, h]
        rw [htr]
        exact Flat.cons Atom.mainReq (ih _)
      | false =>
        have htr : (runEffs ((false, f) :: rest) s).trace =
            [Ev.acqMain, Ev.relMain] ++ (runEffs rest (runOnMain f s).1).trace := by
          simp [runEffs, h]
        rw [htr]
        exact Flat.cons Atom.mainNoReq (ih _)

/-- Every worker-loop trace is a concatenation of complete critical sections
and lock-free task-body markers. -/
theorem flat_workerRun (fuel : Nat) : ∀ s : AppState, Flat (workerRun fuel s).trace := by
  induction fuel with
  | zero => intro s; exact Flat.nil
  | succ n ih =>
    intro s
    obtain ⟨d, bg, mt, fl⟩ := s
    cases bg with
    | nil =>
      cases d
      · rw [workerRun_step_wait]; exact Flat.nil
      · rw [workerRun_step_exit]; exact Flat.cons Atom.bg Flat.nil
    | cons f rest =>
      cases f with
      | none => rw [workerRun_step_null]; exact Flat.cons Atom.bg Flat.nil
      | some t =>
        rw [workerRun_step_pop]
        exact Flat.cons Atom.bg (Flat.cons (Atom.task t.ident)
          (Flat.append (flat_runEffs t.effs _) (ih _)))

/-- Every `runMainTasks` trace is a concatenation of complete critical
sections and lock-free task-body markers. -/
theorem flat_runMainTasks (fuel : Nat) :
    ∀ s : AppState, Flat (runMainTasks fuel s).trace := by
  induction fuel with
  | zero => intro s; exact Flat.nil
  | succ n ih =>
    intro s
    obtain ⟨d, bg, mt, fl⟩ := s
    cases mt with
    | nil => rw [runMainTasks_step_empty]; exact Flat.cons Atom.mainNoReq Flat.nil
    | cons f rest =>
      cases f with
      | none => rw [runMainTasks_step_null]; exact Flat.cons Atom.mainNoReq Flat.nil
      | some t =>
        rw [runMainTasks_step_pop]
        exact Flat.cons Atom.mainNoReq (Flat.cons (Atom.task t.ident)
          (Flat.append (flat_runEffs t.effs _) (ih _)))

/-- A flat trace obeys the locking discipline: both locks free at every
acquisition, every task-body start, and every pump request. -/
theorem flat_lockCheck : ∀ {tr : List Ev}, Flat tr → lockCheck tr 0 0 = true := by
  intro tr h
  induction h with
  | nil => rfl
  | cons ha _ ih => cases ha <;> simp [lockCheck, ih]

/-- Submitting a mixed batch splits it across the two queues in order; the
debounce flag ends set exactly when some main-queue submission occurred. -/
theorem submitTasks_spec (evts : List (Bool × Task)) : ∀ s : AppState,
    submitTasks evts s =
      { s with
        bgTasks := s.bgTasks ++ (bgSubs evts).map some,
        mainTasks := s.mainTasks ++ (mainSubs evts).map some,
        scheduledToRunOnMain :=
          s.scheduledToRunOnMain || !(mainSubs evts).isEmpty } := by
  induction evts with
  | nil => intro s; simp [submitTasks, bgSubs, mainSubs]
  | cons e rest ih =>
    intro s
    obtain ⟨b, t⟩ := e
    cases b with
    | true =>
      have hstep : submitTasks ((true, t) :: rest) s =
          submitTasks rest (runOnBgThread (some t) s) := rfl
      rw [hstep, ih]
      simp [runOnBgThread, bgSubs, mainSubs, List.append_assoc]
    | false =>
      have hstep : submitTasks ((false, t) :: rest) s =
          submitTasks rest ((runOnMain (some t) s).1) := rfl
      rw [hstep, ih, runOnMain_fst]
      simp [bgSubs, mainSubs, List.append_assoc]

/-! ### Claims -/

/-- C1: N submissions via `runOnMain` while no dispatch is outstanding (the
debounce flag clear) issue exactly one pump request — on the flag's
clear-to-set transition; any batch of submissions made while a dispatch is
outstanding (flag set) issues zero pump requests; and a task submitted to the
main queue during an active drain (here, by the very task the drain is
executing) issues no pump request yet is executed before that `runMainTasks`
invocation returns. -/
theorem c1_main_debounce (f : Option Task) (rest : List (Option Task))
    (s : AppState) (hflag : s.scheduledToRunOnMain = false)
    (s2 : AppState) (hflag2 : s2.scheduledToRunOnMain = true)
    (i j : Nat)
    (hq : s2.mainTasks = [some (Task.mk i [(false, some (Task.mk j []))])]) :
    (submitAllMain (f :: rest) s).2 = 1 ∧
    (∀ gs : List (Option Task), ∀ s3 : AppState,
      s3.scheduledToRunOnMain = true → (submitAllMain gs s3).2 = 0) ∧
    (runMainTasks 3 s2).ids = [i, j] ∧ (runMainTasks 3 s2).reqs = 0 := by
  refine ⟨submitAllMain_debounce f rest s hflag, ?_, ?_, ?_⟩
  · intro gs s3 h3
    rw [submitAllMain_flagTrue gs s3 h3]
  · obtain ⟨d, bg, mt, fl⟩ := s2
    simp only at hflag2 hq
    subst hflag2; subst hq
    rfl
  · obtain ⟨d, bg, mt, fl⟩ := s2
    simp only at hflag2 hq
    subst hflag2; subst hq
    rfl

theorem c1_main_debounce_witness :
    (submitAllMain [some (Task.mk 0 [])] createApp).2 = 1 ∧
    (∀ gs : List (Option Task), ∀ s3 : AppState,
      s3.scheduledToRunOnMain = true → (submitAllMain gs s3).2 = 0) ∧
    (runMainTasks 3
      ⟨false, [], [some (Task.mk 1 [(false, some (Task.mk 2 []))])], true⟩).ids = [1, 2] ∧
    (runMainTasks 3
      ⟨false, [], [some (Task.mk 1 [(false, some (Task.mk 2 []))])], true⟩).reqs = 0 :=
  c1_main_debounce (some (Task.mk 0 [])) [] createApp rfl
    ⟨false, [], [some (Task.mk 1 [(false, some (Task.mk 2 []))])], true⟩ rfl 1 2 rfl

/-- C2: effect-free tasks submitted to the background queue from one thread
with no interleaving are executed by the single worker exactly in submission
order (the trace of executed identifiers equals the submitted list), after
which the worker blocks waiting for more work. -/
theorem c2_bg_fifo (ts : List Task) (hpure : ∀ t ∈ ts, t.effs = []) :
    (workerRun (ts.length + 1) (submitAllBg (ts.map some) createApp)).ids =
      ts.map Task.ident ∧
    (workerRun (ts.length + 1) (submitAllBg (ts.map some) createApp)).outcome =
      .blocked := by
  rw [submitAllBg_spec]
  rw [workerRun_pure_noDone ts _ hpure rfl rfl]
  exact ⟨rfl, rfl⟩

theorem c2_bg_fifo_witness :
    (workerRun 4 (submitAllBg [some (Task.mk 1 []), some (Task.mk 2 []),
      some (Task.mk 3 [])] createApp)).ids = [1, 2, 3] ∧
    (workerRun 4 (submitAllBg [some (Task.mk 1 []), some (Task.mk 2 []),
      some (Task.mk 3 [])] createApp)).outcome = .blocked :=
  c2_bg_fifo [Task.mk 1 [], Task.mk 2 [], Task.mk 3 []]
    (by intro t ht; simp at ht; rcases ht with rfl | rfl | rfl <;> rfl)

/-- C3: when shutdown is signaled (the destructor sets `_done`) while the
effect-free tasks `ts` remain in the background queue, the worker executes
all of them in FIFO order, exits only on observing the queue empty with the
shutdown flag set, and the destructor's join completes (outcome
`.exited`). -/
theorem c3_shutdown_drain (ts : List Task) (s : AppState)
    (hpure : ∀ t ∈ ts, t.effs = []) (hq : s.bgTasks = ts.map some) :
    destroyApp (ts.length + 1) s =
      ⟨{ s with done := true, bgTasks := [] }, ts.map Task.ident, 0,
        pureBgTrace ts ++ [Ev.acqBg, Ev.relBg], .exited⟩ := by
  unfold destroyApp
  rw [workerRun_pure_done ts { s with done := true } hpure hq rfl]

theorem c3_shutdown_drain_witness :
    destroyApp 3 ⟨false, [some (Task.mk 1 []), some (Task.mk 2 [])], [], false⟩ =
      ⟨⟨true, [], [], false⟩, [1, 2], 0,
        [Ev.acqBg, Ev.relBg, Ev.execTask 1, Ev.acqBg, Ev.relBg, Ev.execTask 2,
          Ev.acqBg, Ev.relBg], .exited⟩ :=
  c3_shutdown_drain [Task.mk 1 [], Task.mk 2 []]
    ⟨false, [some (Task.mk 1 []), some (Task.mk 2 [])], [], false⟩
    (by intro t ht; simp at ht; rcases ht with rfl | rfl <;> rfl) rfl

/-- C4: each `runMainTasks` invocation loops on `dequeueMain`: if the main
queue is empty it clears the outstanding-dispatch flag and returns having
executed nothing; otherwise it pops the front task, executes it, and keeps
looping — so a task enqueued to the main queue during execution of a
previously dequeued task (here `t` submits `Task.mk j []`) is executed by the
same invocation before it returns. -/
theorem c4_main_drain_loop (s : AppState) (hs : s.mainTasks = []) (fuel : Nat)
    (s2 : AppState) (t : Task) (j : Nat)
    (ht : t.effs = [(false, some (Task.mk j []))]) (hq : s2.mainTasks = [some t]) :
    runMainTasks (fuel + 1) s =
      ⟨{ s with scheduledToRunOnMain := false }, [], 0, [Ev.acqMain, Ev.relMain]⟩ ∧
    (runMainTasks 3 s2).ids = [t.ident, j] := by
  constructor
  · obtain ⟨d, bg, mt, fl⟩ := s
    simp only at hs
    subst hs
    exact runMainTasks_step_empty fuel d bg fl
  · obtain ⟨d, bg, mt, fl⟩ := s2
    obtain ⟨i, effs⟩ := t
    simp only [Task.effs] at ht
    simp only at hq
    subst ht; subst hq
    cases fl
    · rfl
    · rfl

theorem c4_main_drain_loop_witness :
    runMainTasks 1 (⟨false, [], [], true⟩ : AppState) =
      ⟨⟨false, [], [], false⟩, [], 0, [Ev.acqMain, Ev.relMain]⟩ ∧
    (runMainTasks 3
      ⟨false, [], [some (Task.mk 1 [(false, some (Task.mk 2 []))])], false⟩).ids = [1, 2] :=
  c4_main_drain_loop ⟨false, [], [], true⟩ rfl 0
    ⟨false, [], [some (Task.mk 1 [(false, some (Task.mk 2 []))])], false⟩
    (Task.mk 1 [(false, some (Task.mk 2 []))]) 2 rfl rfl

/-- C5 counterexample: a null `std::function` submitted to the background
queue via `runOnBgThread`, followed by a genuine task (identifier 1), both
submitted before teardown begins.  Tearing down (`destroyApp`, ample fuel)
executes nothing: the worker pops the null function and exits, the genuine
task is still queued when the scheduler's resources are released and is never
executed — contradicting the claim that every task submitted before teardown
runs exactly once with the sole exception of background submissions made
after shutdown's drain completed. -/
theorem c5_exactly_once_counterexample :
    nullThenTask.bgTasks = [none, some (Task.mk 1 [])] ∧
    nullThenTask.done = false ∧
    (destroyApp 10 nullThenTask).ids = [] ∧
    (destroyApp 10 nullThenTask).outcome = .exited ∧
    (destroyApp 10 nullThenTask).state.bgTasks = [some (Task.mk 1 [])] :=
  ⟨rfl, rfl, rfl, rfl, rfl⟩

/-- C5 (amended: provided no null callable is ever submitted): every genuine
task submitted to either queue before teardown begins is executed exactly
once — draining the main queue executes exactly the main submissions in
order, and teardown then executes exactly the background submissions in
order before the worker exits. -/
theorem c5_exactly_once (evts : List (Bool × Task))
    (hpure : ∀ e ∈ evts, e.2.effs = []) :
    (runMainTasks ((mainSubs evts).length + 1) (submitTasks evts createApp)).ids =
      (mainSubs evts).map Task.ident ∧
    (destroyApp ((bgSubs evts).length + 1)
      (runMainTasks ((mainSubs evts).length + 1)
        (submitTasks evts createApp)).state).ids =
      (bgSubs evts).map Task.ident ∧
    (destroyApp ((bgSubs evts).length + 1)
      (runMainTasks ((mainSubs evts).length + 1)
        (submitTasks evts createApp)).state).outcome = .exited := by
  have hm : ∀ t ∈ mainSubs evts, t.effs = [] := by
    intro t htm
    obtain ⟨e, he, rfl⟩ := List.mem_map.mp htm
    exact hpure e (List.mem_of_mem_filter he)
  have hb : ∀ t ∈ bgSubs evts, t.effs = [] := by
    intro t htb
    obtain ⟨e, he, rfl⟩ := List.mem_map.mp htb
    exact hpure e (List.mem_of_mem_filter he)
  rw [submitTasks_spec]
  rw [runMainTasks_pure (mainSubs evts) _ hm rfl]
  unfold destroyApp
  rw [workerRun_pure_done (bgSubs evts) _ hb rfl rfl]
  exact ⟨rfl, rfl, rfl⟩

theorem c5_exactly_once_witness :
    (runMainTasks 2 (submitTasks
      [(true, Task.mk 1 []), (false, Task.mk 2 []), (true, Task.mk 3 [])]
      createApp)).ids = [2] ∧
    (destroyApp 3 (runMainTasks 2 (submitTasks
      [(true, Task.mk 1 []), (false, Task.mk 2 []), (true, Task.mk 3 [])]
      createApp)).state).ids = [1, 3] ∧
    (destroyApp 3 (runMainTasks 2 (submitTasks
      [(true, Task.mk 1 []), (false, Task.mk 2 []), (true, Task.mk 3 [])]
      createApp)).state).outcome = .exited :=
  c5_exactly_once [(true, Task.mk 1 []), (false, Task.mk 2 []), (true, Task.mk 3 [])]
    (by intro e he; simp at he; rcases he with rfl | rfl | rfl <;> rfl)

/-- C6: in every bounded run of the worker loop and of `runMainTasks`, from
any state, the emitted event trace obeys the locking discipline: every lock
acquisition (hence every submission performed from inside a task body)
happens with both locks free — so no acquisition is reentrant and the
background-queue lock and main-queue lock are never held simultaneously — and
every task body starts executing with both locks free (each dequeue releases
its queue's lock before the popped task runs). -/
theorem c6_lock_discipline (fuel : Nat) (s : AppState) :
    lockCheck (workerRun fuel s).trace 0 0 = true ∧
    lockCheck (runMainTasks fuel s).trace 0 0 = true :=
  ⟨flat_lockCheck (flat_workerRun fuel s), flat_lockCheck (flat_runMainTasks fuel s)⟩

/-- C7: destroying the scheduler blocks until the worker has exited: for any
queue contents (genuine effect-free tasks or null functions) the worker loop
reaches `.exited`, so the destructor's `join` — executed before the object's
resources are released — always completes; and when the queue holds only
genuine tasks, the worker drains it completely (no queued task is dropped)
and executes every queued task before exiting. -/
theorem c7_destroy_joins (qs : List (Option Task)) (s : AppState)
    (hq : s.bgTasks = qs)
    (hp : ∀ f ∈ qs, ∀ t : Task, f = some t → t.effs = [])
    (ts : List Task) (s2 : AppState)
    (hq2 : s2.bgTasks = ts.map some) (hp2 : ∀ t ∈ ts, t.effs = []) :
    (destroyApp (qs.length + 1) s).outcome = .exited ∧
    (destroyApp (ts.length + 1) s2).state.bgTasks = [] ∧
    (destroyApp (ts.length + 1) s2).ids = ts.map Task.ident := by
  refine ⟨?_, ?_, ?_⟩
  · exact workerRun_done_exits qs { s with done := true } hq rfl hp
  · unfold destroyApp
    rw [workerRun_pure_done ts { s2 with done := true } hp2 hq2 rfl]
  · unfold destroyApp
    rw [workerRun_pure_done ts { s2 with done := true } hp2 hq2 rfl]

theorem c7_destroy_joins_witness :
    (destroyApp 2 (⟨false, [none], [], false⟩ : AppState)).outcome = .exited ∧
    (destroyApp 2 (⟨false, [some (Task.mk 1 [])], [], false⟩ : AppState)).state.bgTasks = [] ∧
    (destroyApp 2 (⟨false, [some (Task.mk 1 [])], [], false⟩ : AppState)).ids = [1] :=
  c7_destroy_joins [none] ⟨false, [none], [], false⟩ rfl
    (by rintro f hf t rfl; simp at hf)
    [Task.mk 1 []] ⟨false, [some (Task.mk 1 [])], [], false⟩ rfl
    (by intro t ht; simp at ht; subst ht; rfl)

/-- C8: when the front of the background queue is a null `std::function`, the
worker dequeues it and the loop condition fails, so the worker exits
permanently even though shutdown was never requested (`done` still `false` in
the resulting state); nothing is executed and every task queued behind the
null function (and any submitted afterwards) is stranded unexecuted. -/
theorem c8_null_bg_exits_worker (s : AppState) (rest : List (Option Task))
    (fuel : Nat) (hq : s.bgTasks = none :: rest) (hd : s.done = false) :
    workerRun (fuel + 1) s =
      ⟨{ s with bgTasks := rest }, [], 0, [Ev.acqBg, Ev.relBg], .exited⟩ := by
  obtain ⟨d, bg, mt, fl⟩ := s
  simp only at hq hd
  subst hq; subst hd
  exact workerRun_step_null fuel false rest mt fl

theorem c8_null_bg_exits_worker_witness :
    workerRun 6 (⟨false, [none, some (Task.mk 1 [])], [], false⟩ : AppState) =
      ⟨⟨false, [some (Task.mk 1 [])], [], false⟩, [], 0,
        [Ev.acqBg, Ev.relBg], .exited⟩ :=
  c8_null_bg_exits_worker ⟨false, [none, some (Task.mk 1 [])], [], false⟩
    [some (Task.mk 1 [])] 5 rfl rfl

/-- C9: when the front of the main queue is a null `std::function`,
`runMainTasks` pops it and its loop exits without clearing the
outstanding-dispatch flag; the flag stays set while tasks may remain queued,
so every subsequent `runOnMain` submission is coalesced (no pump request is
ever issued again) and the remaining queued tasks stay unexecuted. -/
theorem c9_null_main_sticks_flag (s : AppState) (rest : List (Option Task))
    (fuel : Nat) (g : Option Task)
    (hq : s.mainTasks = none :: rest) (hflag : s.scheduledToRunOnMain = true) :
    runMainTasks (fuel + 1) s =
      ⟨{ s with mainTasks := rest }, [], 0, [Ev.acqMain, Ev.relMain]⟩ ∧
    ({ s with mainTasks := rest } : AppState).scheduledToRunOnMain = true ∧
    (runOnMain g { s with mainTasks := rest }).2 = false := by
  obtain ⟨d, bg, mt, fl⟩ := s
  simp only at hq hflag
  subst hq; subst hflag
  exact ⟨runMainTasks_step_null fuel d bg rest true, rfl, rfl⟩

theorem c9_null_main_sticks_flag_witness :
    runMainTasks 6 (⟨false, [], [none, some (Task.mk 1 [])], true⟩ : AppState) =
      ⟨⟨false, [], [some (Task.mk 1 [])], true⟩, [], 0,
        [Ev.acqMain, Ev.relMain]⟩ ∧
    ((⟨false, [], [some (Task.mk 1 [])], true⟩ : AppState)).scheduledToRunOnMain = true ∧
    (runOnMain (some (Task.mk 7 [])) (⟨false, [], [some (Task.mk 1 [])], true⟩ : AppState)).2 = false :=
  c9_null_main_sticks_flag ⟨false, [], [none, some (Task.mk 1 [])], true⟩
    [some (Task.mk 1 [])] 5 (some (Task.mk 7 [])) rfl rfl

/-- C10: calling `runMainTasks` with the main queue empty is a safe no-op
with respect to the queues: it returns after the single empty check, executes
no task, issues no pump request, leaves both queues as they were
(`bgTasks`/`mainTasks` unchanged in the resulting state), and leaves the
outstanding-dispatch flag cleared, whatever it was before. -/
theorem c10_empty_pump_noop (s : AppState) (hs : s.mainTasks = []) (fuel : Nat) :
    runMainTasks (fuel + 1) s =
      ⟨{ s with scheduledToRunOnMain := false }, [], 0, [Ev.acqMain, Ev.relMain]⟩ := by
  obtain ⟨d, bg, mt, fl⟩ := s
  simp only at hs
  subst hs
  exact runMainTasks_step_empty fuel d bg fl

theorem c10_empty_pump_noop_witness :
    runMainTasks 3 (⟨false, [some (Task.mk 9 [])], [], true⟩ : AppState) =
      ⟨⟨false, [some (Task.mk 9 [])], [], false⟩, [], 0, [Ev.acqMain, Ev.relMain]⟩ :=
  c10_empty_pump_noop ⟨false, [some (Task.mk 9 [])], [], true⟩ rfl 2

end CoreApp
